import Mathlib

/-!
Verification development for the kanata cheatsheet renderer
(scripts/render_kanata_layers.py).

The script is embedded shallowly: text is `List Char`, Python dicts are
insertion-ordered association lists (`Dict`), fallible code returns
`Except`, and the one unbounded loop of the source
(`parse_all_defalias`) is given an explicit fuel parameter so that its
divergence can be stated and proved.  Every definition follows the
Python source line by line; deviations forced by the embedding are
recorded in comments next to the definition they concern.
-/

set_option maxRecDepth 4000

namespace Kanata

/-- Text is modelled as a list of characters. -/
abbrev Str : Type := List Char

/-- Convert a Lean string literal to the character-list model. -/
def chars (s : String) : Str := s.data

/-- Python dicts keyed by strings, modelled as insertion-ordered
association lists (CPython dicts preserve insertion order; updating an
existing key keeps its position). -/
abbrev Dict (α : Type) : Type := List (Str × α)

/-- Lookup in a `Dict` (first matching key; keys are unique when the
dict is built with `dinsert`). -/
def dlookup {α : Type} (k : Str) : Dict α → Option α
  | [] => none
  | p :: rest => if p.1 = k then some p.2 else dlookup k rest

/-- Python `d.get(k, default)`. -/
def dGet {α : Type} (d : Dict α) (k : Str) (dflt : α) : α :=
  (dlookup k d).getD dflt

/-- Python `d[k] = v`: update in place if the key exists (keeping its
insertion position), otherwise append at the end. -/
def dinsert {α : Type} (k : Str) (v : α) (d : Dict α) : Dict α :=
  if d.any (fun p => decide (p.1 = k)) then
    d.map (fun p => if p.1 = k then (k, v) else p)
  else
    d ++ [(k, v)]

/-- The characters matched by Python `\s` / `str.strip()` (ASCII part;
all text handled by the script is ASCII plus a few glyphs, none of
which are whitespace). -/
def pyIsSpace (c : Char) : Bool :=
  c == ' ' || c == '\t' || c == '\n' || c == '\r' || c == '\x0b' || c == '\x0c'

/-- The character class `[A-Za-z0-9_]` (Python `\w`, ASCII). -/
def isWordChar (c : Char) : Bool := c.isAlpha || c.isDigit || c == '_'

/-- Python `s.strip()`. -/
def pyStrip (s : Str) : Str :=
  ((s.dropWhile pyIsSpace).reverse.dropWhile pyIsSpace).reverse

/-- Worker for `pyWords`: accumulates the current word (reversed). -/
def wordsAux (cur : Str) : Str → List Str
  | [] => if cur = [] then [] else [cur.reverse]
  | c :: rest =>
    if pyIsSpace c then
      if cur = [] then wordsAux [] rest else cur.reverse :: wordsAux [] rest
    else wordsAux (c :: cur) rest

/-- Python `s.split()` (no separator): split on whitespace runs,
dropping leading/trailing whitespace and empty words. -/
def pyWords (s : Str) : List Str := wordsAux [] s

/-- Python `str.upper()` (ASCII; the script only uppercases ASCII
tokens). -/
def upperStr (s : Str) : Str := s.map Char.toUpper

/-- Python `str.capitalize()`: first character uppercased, the rest
lowercased. -/
def pyCapitalize : Str → Str
  | [] => []
  | c :: rest => Char.toUpper c :: rest.map Char.toLower

/-- Python `str.splitlines()` restricted to `'\n'` separators (the only
line terminator occurring in the script's input handling). -/
def splitlinesAux (cur : Str) : Str → List Str
  | [] => if cur = [] then [] else [cur.reverse]
  | c :: rest =>
    if c = '\n' then cur.reverse :: splitlinesAux [] rest
    else splitlinesAux (c :: cur) rest

/-- Python `s.splitlines()` (newline separator). -/
def splitlines (s : Str) : List Str := splitlinesAux [] s

/-- Source `strip_comments`: `line.split(";;", 1)[0]`, i.e. the prefix
of the line before the first occurrence of `;;`. -/
def strip_comments : Str → Str
  | [] => []
  | [c] => [c]
  | c :: d :: rest =>
    if c = ';' ∧ d = ';' then [] else c :: strip_comments (d :: rest)

/-- Source `tokens_from_lines`: strip comments and whitespace from each
line, skip empty lines, split the rest on whitespace. -/
def tokens_from_lines : List Str → List Str
  | [] => []
  | ln :: rest =>
    let l := pyStrip (strip_comments ln)
    if l = [] then tokens_from_lines rest
    else pyWords l ++ tokens_from_lines rest

/-- Worker for `findFrom`: index of the first suffix having `pat` as a
prefix. -/
def findAux (pat : Str) : Str → Nat → Option Nat
  | [], i => if pat = [] then some i else none
  | c :: rest, i =>
    if pat.isPrefixOf (c :: rest) then some i else findAux pat rest (i + 1)

/-- Python `text.find(pat, start)`: lowest index `≥ start` at which
`pat` occurs, `none` (Python `-1`) when it does not occur. -/
def findFrom (pat text : Str) (start : Nat) : Option Nat :=
  match findAux pat (text.drop start) 0 with
  | some j => some (start + j)
  | none => none

/-- Scanner of source `parse_block`: walk the text from the header
position tracking parenthesis depth; `i` is the absolute index of the
head of the first argument, `start` the block's start index. -/
def pb_scan (head : Str) (text : Str) (start : Nat) :
    Str → Nat → Int → Bool → Except Str (List Str × Nat × Nat)
  | [], _, _, _ => .error (chars "Unclosed block for " ++ head)
  | c :: rest, i, depth, in_block =>
    if c = '(' then pb_scan head text start rest (i + 1) (depth + 1) true
    else if c = ')' then
      if in_block ∧ depth - 1 = 0 then
        let block_text := (text.drop start).take (i + 1 - start)
        let block_lines := splitlines block_text
        .ok ((block_lines.drop 1).dropLast, start, i + 1)
      else pb_scan head text start rest (i + 1) (depth - 1) in_block
    else pb_scan head text start rest (i + 1) depth in_block

/-- Source `parse_block`: find the first occurrence of `head` (always
searching from offset 0 — the function takes no start offset), then
scan for the matching close parenthesis.  Returns the interior lines
(first and last line of the block removed), the start index and the
end index (one past the closing paren). -/
def parse_block (text head : Str) : Except Str (List Str × Nat × Nat) :=
  match findFrom head text 0 with
  | none => .error (chars "Block not found: " ++ head)
  | some start => pb_scan head text start (text.drop start) start 0 false

/-- Truth value of `Except.ok`. -/
def exOk {ε α : Type} : Except ε α → Bool
  | .ok _ => true
  | .error _ => false

/-- Worker for source `chunk_rows`; `idx` is the running offset into
`tokens`, as in the Python loop. -/
def chunk_rows_go (tokens : List Str) : List Nat → Nat → List (List Str)
  | [], _ => []
  | size :: rest, idx =>
    ((tokens.drop idx).take size) :: chunk_rows_go tokens rest (idx + size)

/-- Source `chunk_rows`: regroup a flat token list into rows of the
given sizes (`tokens[idx : idx + size]` per row). -/
def chunk_rows (tokens : List Str) (row_sizes : List Nat) : List (List Str) :=
  chunk_rows_go tokens row_sizes 0

/-- The header searched for by `parse_all_defalias`. -/
def defaliasHead : Str := chars "(defalias"

/-- The regular expression `^([A-Za-z0-9_]+)\s+(.+)$` of
`parse_all_defalias`, specialised to its call site: the argument has
already been passed through `str.strip()`, so it has no leading or
trailing whitespace and the greedy quantifiers reduce to maximal
munch.  The match succeeds iff the line starts with a nonempty run of
word characters immediately followed by whitespace and at least one
further character; group 1 is the word run, group 2 everything after
the whitespace run. -/
def matchAliasLine (ln : Str) : Option (Str × Str) :=
  let name := ln.takeWhile isWordChar
  let rest := ln.dropWhile isWordChar
  if name = [] then none
  else
    match rest with
    | [] => none
    | c :: _ =>
      if pyIsSpace c then
        let expr := rest.dropWhile pyIsSpace
        if expr = [] then none else some (name, expr)
      else none

/-- Body of the inner `for ln in inner` loop of `parse_all_defalias`:
strip comments and whitespace, skip empty lines and non-matching
lines, otherwise store `name -> expr.strip()`. -/
def pa_process_line (aliases : Dict Str) (ln : Str) : Dict Str :=
  let l := pyStrip (strip_comments ln)
  if l = [] then aliases
  else if (chars ";;").isPrefixOf l then aliases
  else
    match matchAliasLine l with
    | none => aliases
    | some p => dinsert p.1 (pyStrip p.2) aliases

/-- One iteration of the `while True` loop of `parse_all_defalias`:
`inl` is a `break`/`raise` leaving the loop, `inr` the next loop state
`(start, aliases)`.  Mirrors the source exactly: the `find` uses the
running `start` offset, but the `parse_block` call always searches
from offset 0 (the source passes no offset). -/
def pa_step (text : Str) (start : Nat) (aliases : Dict Str) :
    Sum (Except Str (Dict Str)) (Nat × Dict Str) :=
  match findFrom defaliasHead text start with
  | none => .inl (.ok aliases)
  | some _ =>
    match parse_block text defaliasHead with
    | .error msg => .inl (.error msg)
    | .ok r => .inr (r.2.2, r.1.foldl pa_process_line aliases)

/-- The `while True` loop of `parse_all_defalias` with explicit fuel;
`none` means the fuel ran out (the source loop has not terminated
within `fuel` iterations). -/
def pa_loop (text : Str) : Nat → Nat → Dict Str → Option (Except Str (Dict Str))
  | 0, _, _ => none
  | fuel + 1, start, aliases =>
    match pa_step text start aliases with
    | .inl r => some r
    | .inr p => pa_loop text fuel p.1 p.2

/-- Source `parse_all_defalias`, fuel-indexed: `some (ok d)` when the
loop returns the dict, `some (error m)` when `parse_block` raises, and
`none` when the loop has not finished after `fuel` iterations. -/
def parse_all_defalias (text : Str) (fuel : Nat) : Option (Except Str (Dict Str)) :=
  pa_loop text fuel 0 []

/-- The `mod_icon` table of `build_alias_descriptions`. -/
def mod_icon : Dict Str :=
  [(chars "lctl", chars "⌃"), (chars "rctl", chars "⌃"),
   (chars "lsft", chars "⇧"), (chars "rsft", chars "⇧"),
   (chars "lalt", chars "⌥"), (chars "ralt", chars "⌥"),
   (chars "lmet", chars "⌘"), (chars "rmet", chars "⌘")]

/-- The `key_icon` table of `build_alias_descriptions`. -/
def key_icon : Dict Str :=
  [(chars "spc", chars "␣"), (chars "space", chars "␣"),
   (chars "tab", chars "⇥"), (chars "bspc", chars "⌫"),
   (chars "ret", chars "⏎"), (chars "esc", chars "⎋"),
   (chars "slash", chars "/"), (chars "bsl", chars "\\"),
   (chars "lsgt", chars "<>"), (chars "comma", chars ","),
   (chars "dot", chars ".")]

/-- Source `key_icon.get(ch, ch.upper() if len(ch) == 1 else ch)`. -/
def glyphOrUp (ch : Str) : Str :=
  dGet key_icon ch (if ch.length = 1 then upperStr ch else ch)

/-- Source `expr.replace` of newlines by spaces. -/
def nlToSpace (s : Str) : Str := s.map (fun c => if c = '\n' then ' ' else c)

/-- Consume a literal. -/
def dropLit (lit s : Str) : Option Str :=
  if lit.isPrefixOf s then some (s.drop lit.length) else none

/-- Consume `\s+` (at least one whitespace character, maximal munch —
exact for the patterns below, whose `\s+` is always followed by a
non-whitespace-only continuation). -/
def spaces1 (s : Str) : Option Str :=
  match s with
  | [] => none
  | c :: rest =>
    if pyIsSpace c then some ((c :: rest).dropWhile pyIsSpace) else none

/-- Consume `\S+` (maximal nonempty run of non-whitespace). -/
def nonSpace1 (s : Str) : Option (Str × Str) :=
  let w := s.takeWhile (fun c => !pyIsSpace c)
  if w = [] then none else some (w, s.drop w.length)

/-- Consume `\w+` (maximal nonempty run of word characters; exact for
the patterns below, where `\w+` is always followed by `)`). -/
def word1 (s : Str) : Option (Str × Str) :=
  let w := s.takeWhile isWordChar
  if w = [] then none else some (w, s.drop w.length)

/-- The modifier alternation `(lctl|lalt|lsft|lmet|rctl|ralt|rsft|rmet)`
followed by `\)`. -/
def matchModParen (s : Str) : Option Str :=
  [chars "lctl", chars "lalt", chars "lsft", chars "lmet",
   chars "rctl", chars "ralt", chars "rsft", chars "rmet"].findSome?
    (fun m => (dropLit m s).bind (fun r => (dropLit (chars ")") r).map (fun _ => m)))

/-- Rule 1 of `build_alias_descriptions` anchored at one position:
`\(t!\s*charmod\s+(\S+)\s+(lctl|lalt|lsft|lmet|rctl|ralt|rsft|rmet)\)`. -/
def rule1At (s : Str) : Option (Str × Str) := do
  let s ← dropLit (chars "(t!") s
  let s := s.dropWhile pyIsSpace
  let s ← dropLit (chars "charmod") s
  let s ← spaces1 s
  let (ch, s) ← nonSpace1 s
  let s ← spaces1 s
  let m ← matchModParen s
  pure (ch, m)

/-- Rule 2 anchored at one position:
`\(t!\s*charmod\s+spc\s+\(multi\s+\(layer-switch\s+(\w+)\)\s*\)`. -/
def rule2At (s : Str) : Option Str := do
  let s ← dropLit (chars "(t!") s
  let s := s.dropWhile pyIsSpace
  let s ← dropLit (chars "charmod") s
  let s ← spaces1 s
  let s ← dropLit (chars "spc") s
  let s ← spaces1 s
  let s ← dropLit (chars "(multi") s
  let s ← spaces1 s
  let s ← dropLit (chars "(layer-switch") s
  let s ← spaces1 s
  let (layer, s) ← word1 s
  let s ← dropLit (chars ")") s
  let s := s.dropWhile pyIsSpace
  let _ ← dropLit (chars ")") s
  pure layer

/-- Rule 3 anchored at one position:
`\(t!\s*charmod\s+(\S+)\s+\(layer-while-held\s+(\w+)\)\)`. -/
def rule3At (s : Str) : Option (Str × Str) := do
  let s ← dropLit (chars "(t!") s
  let s := s.dropWhile pyIsSpace
  let s ← dropLit (chars "charmod") s
  let s ← spaces1 s
  let (ch, s) ← nonSpace1 s
  let s ← spaces1 s
  let s ← dropLit (chars "(layer-while-held") s
  let s ← spaces1 s
  let (layer, s) ← word1 s
  let s ← dropLit (chars ")") s
  let _ ← dropLit (chars ")") s
  pure (ch, layer)

/-- Rule 4 anchored at one position: `\(chord\s+\w+\s+(.+?)\)$`.
The `$` pins the match to the end of the (newline-free) string, so the
group is everything between the second whitespace run and the final
`)`.  When that region would be empty the engine backtracks one
whitespace character out of `\s+` into the group (possible only when
the run has length at least 2), making the group a single space. -/
def rule4At (s : Str) : Option Str := do
  let s ← dropLit (chars "(chord") s
  let s ← spaces1 s
  let (_, s) ← word1 s
  match s with
  | [] => none
  | c :: _ =>
    if pyIsSpace c then
      let ws := s.takeWhile pyIsSpace
      let r := s.drop ws.length
      if r.getLast? = some ')' then
        if 2 ≤ r.length then some r.dropLast
        else if 2 ≤ ws.length then some [' ']
        else none
      else none
    else none

/-- Rule 5 anchored at one position: `\(layer-switch\s+(\w+)\)`. -/
def rule5At (s : Str) : Option Str := do
  let s ← dropLit (chars "(layer-switch") s
  let s ← spaces1 s
  let (layer, s) ← word1 s
  let _ ← dropLit (chars ")") s
  pure layer

/-- Python `re.search`: try the anchored matcher at every suffix, leftmost
match first. -/
def searchM {α : Type} (m : Str → Option α) : Str → Option α
  | [] => m []
  | c :: rest =>
    match m (c :: rest) with
    | some r => some r
    | none => searchM m rest

/-- The body of the `for name, expr in aliases.items()` loop of
`build_alias_descriptions`: ordered first-match-wins rule list with
the uppercased name as fallback. -/
def aliasDesc (name expr : Str) : Str :=
  let e := nlToSpace expr
  match searchM rule1At e with
  | some (ch, m) => glyphOrUp ch ++ chars " " ++ dGet mod_icon m m
  | none =>
  match searchM rule2At e with
  | some layer => chars "␣ → " ++ pyCapitalize layer
  | none =>
  match searchM rule3At e with
  | some p => glyphOrUp p.1 ++ chars " → " ++ pyCapitalize p.2
  | none =>
  match searchM rule4At e with
  | some g => glyphOrUp (pyStrip g)
  | none =>
  match searchM rule5At e with
  | some layer => chars "→ " ++ pyCapitalize layer
  | none =>
  if (findFrom (chars "press-virtualkey shift") e 0).isSome then chars "⇧ press"
  else upperStr name

/-- Source `build_alias_descriptions`. -/
def build_alias_descriptions (aliases : Dict Str) : Dict Str :=
  aliases.foldl (fun d p => dinsert p.1 (aliasDesc p.1 p.2) d) []

/-- The `mapping` table of `friendly_label`. -/
def label_mapping : Dict Str :=
  [(chars "esc", chars "⎋"), (chars "bspc", chars "⌫"),
   (chars "del", chars "⌦"), (chars "ret", chars "⏎"),
   (chars "tab", chars "⇥"), (chars "caps", chars "⇪"),
   (chars "spc", chars "␣"), (chars "space", chars "␣"),
   (chars "pp", chars "⏯"), (chars "vold", chars "🔉"),
   (chars "volu", chars "🔊"), (chars "mute", chars "🔇"),
   (chars "lmet", chars "⌘"), (chars "rmet", chars "⌘"),
   (chars "lalt", chars "⌥"), (chars "ralt", chars "⌥"),
   (chars "lsft", chars "⇧"), (chars "rsft", chars "⇧"),
   (chars "lctl", chars "⌃"), (chars "rctl", chars "⌃"),
   (chars "rght", chars "→"), (chars "left", chars "←"),
   (chars "up", chars "↑"), (chars "down", chars "↓"),
   (chars "pgup", chars "Pg↑"), (chars "pgdn", chars "Pg↓"),
   (chars "home", chars "Home"), (chars "end", chars "End"),
   (chars "ins", chars "Ins"), (chars "lsgt", chars "<>"),
   (chars "bsl", chars "\\"), (chars "slash", chars "/"),
   (chars "dash", chars "-"), (chars "btick", chars "`"),
   (chars "lbrk", chars "["), (chars "rbrkA", chars "]"),
   (chars "comma", chars ","), (chars "dot", chars ".")]

/-- Pattern `f` followed by one or two digits, fully matched. -/
def isFKey (t : Str) : Bool :=
  match t with
  | [] => false
  | c :: rest =>
    c == 'f' && rest.all Char.isDigit && decide (1 ≤ rest.length) &&
      decide (rest.length ≤ 2)

/-- Source `friendly_label`. -/
def friendly_label (tok : Str) (alias_desc : Dict Str) : Str :=
  if tok = chars "_" then []
  else if tok.head? = some '@' then
    let name := tok.drop 1
    dGet alias_desc name (upperStr name)
  else
    match dlookup tok label_mapping with
    | some v => v
    | none =>
      if isFKey tok then upperStr tok
      else if tok.length = 1 ∧ tok.all Char.isAlpha then upperStr tok
      else tok

/-- The `wide` table of `key_width_class`. -/
def wide_table : Dict Str :=
  [(chars "tab", chars "w-15"), (chars "caps", chars "w-17"),
   (chars "lsft", chars "w-20"), (chars "rsft", chars "w-23"),
   (chars "bspc", chars "w-17"), (chars "ret", chars "w-20"),
   (chars "spc", chars "w-50")]

/-- Source `key_width_class`: `wide.get(shape_tok, '')`. -/
def key_width_class (shape_tok : Str) : Str := dGet wide_table shape_tok []

/-- The space-alias tuple of `render_layer_html` line
`if t in ('spc', '@spc', 'space', '@space')`. -/
def space_variants : List Str :=
  [chars "spc", chars "@spc", chars "space", chars "@space"]

/-- The `classes` computation of the inner key loop of
`render_layer_html`. -/
def keyClasses (t shape_tok : Str) : List Str :=
  let classes := [chars "key"]
  let classes := if t = chars "_" then classes ++ [chars "trans"] else classes
  let wcls := key_width_class shape_tok
  let classes := if wcls ≠ [] then classes ++ [wcls] else classes
  if t ∈ space_variants then classes ++ [chars "w-50"] else classes

/-- The guarded shape lookup of `render_layer_html`:
`shape_rows[ri][ci] if ri < len(shape_rows) and ci < len(shape_rows[ri])
else ''`. -/
def shapeTokAt (shape_rows : List (List Str)) (ri ci : Nat) : Str :=
  if ri < shape_rows.length ∧ ci < (shape_rows.getD ri []).length then
    (shape_rows.getD ri []).getD ci []
  else []

/-- One key `<div>` of `render_layer_html`. -/
def render_key (t shape_tok : Str) (alias_desc : Dict Str) : Str :=
  chars "<div class=\"" ++ List.intercalate (chars " ") (keyClasses t shape_tok) ++
    chars "\">" ++ friendly_label t alias_desc ++ chars "</div>"

/-- Decimal rendering of a row index (Python f-string interpolation). -/
def natStr (n : Nat) : Str := Nat.toDigits 10 n

/-- The html fragments appended for row `ri` of `render_layer_html`
(opening row div, one key div per token, closing div). -/
def render_row (ri : Nat) (r : List Str) (shape_rows : List (List Str))
    (alias_desc : Dict Str) : List Str :=
  (chars "<div class=\"row r" ++ natStr ri ++ chars "\">") ::
    (r.enum.map (fun p => render_key p.2 (shapeTokAt shape_rows ri p.1) alias_desc))
    ++ [chars "</div>"]

/-- Source `render_layer_html`: layer header, rows, closing div,
joined with newlines. -/
def render_layer_html (name : Str) (rows shape_rows : List (List Str))
    (alias_desc : Dict Str) : Str :=
  let header := chars "<div class=\"layer\"><div class=\"layer-name\">" ++ name ++
    chars "</div>"
  let parts := header ::
    (rows.enum.map (fun p => render_row p.1 p.2 shape_rows alias_desc)).flatten
    ++ [chars "</div>"]
  List.intercalate (chars "\n") parts

/-- The stylesheet of `build_html`, verbatim (braces written as hex
escapes). -/
def css : Str := chars "\n    body \x7b font-family: ui-sans-serif, system-ui, -apple-system, Segoe UI, Roboto, Arial, sans-serif; background:#111; color:#ddd; \x7d\n    .wrap \x7b display:flex; flex-direction:column; gap:28px; padding:24px; \x7d\n    .layer \x7b background:#1a1a1a; border:1px solid #333; border-radius:10px; padding:16px; box-shadow: 0 2px 8px rgba(0,0,0,0.3); \x7d\n    .layer-name \x7b font-weight:600; margin-bottom:10px; letter-spacing:0.5px; \x7d\n    .row \x7b display:flex; gap:8px; margin:6px 0; \x7d\n    .r2 \x7b margin-left: 20px; \x7d  /* Tab row */\n    .r3 \x7b margin-left: 36px; \x7d  /* Caps row */\n    .r4 \x7b margin-left: 56px; \x7d  /* Shift row */\n    .r5 \x7b margin-left: 90px; \x7d  /* Space row */\n    .key \x7b min-width:44px; height:44px; display:flex; align-items:center; justify-content:center; background:#222; border:1px solid #444; border-radius:6px; font-size:14px; padding:0 6px; \x7d\n    .trans \x7b opacity:0.22; \x7d\n    /* width classes roughly modeled on ANSI keyboard */\n    .w-15 \x7b min-width: 66px; \x7d\n    .w-17 \x7b min-width: 78px; \x7d\n    .w-20 \x7b min-width: 96px; \x7d\n    .w-23 \x7b min-width: 110px; \x7d\n    .w-50 \x7b min-width: 320px; \x7d\n    "

/-- Source `build_html`: fixed head, one layer section per entry of
`layers` in insertion order, fixed tail, joined with newlines. -/
def build_html (layers : Dict (List (List Str))) (shape_rows : List (List Str))
    (alias_desc : Dict Str) : Str :=
  let parts :=
    [chars "<html><head><meta charset=\x27utf-8\x27><style>", css,
     chars "</style></head><body>", chars "<div class=\x27wrap\x27>"]
    ++ layers.map (fun p => render_layer_html p.1 p.2 shape_rows alias_desc)
    ++ [chars "</div></body></html>"]
  List.intercalate (chars "\n") parts

/-- The `row_sizes` computation of `main`: token count of each
comment-stripped `defsrc` line, empty lines skipped. -/
def row_sizes_of : List Str → List Nat
  | [] => []
  | ln :: rest =>
    let tokc := (pyWords (strip_comments ln)).length
    if tokc ≠ 0 then tokc :: row_sizes_of rest else row_sizes_of rest

/-- The `shape_rows` computation of `main`: tokens of each
comment-stripped `defsrc` line, empty lines skipped. -/
def shape_rows_of : List Str → List (List Str)
  | [] => []
  | ln :: rest =>
    let toks := pyWords (strip_comments ln)
    if toks ≠ [] then toks :: shape_rows_of rest else shape_rows_of rest

/-- The hardcoded layer preference tuple of `main`. -/
def pl_names : List Str := [chars "main", chars "extend", chars "fumbol"]

/-- Header string for a named layer block. -/
def deflayerHead (lname : Str) : Str := chars "(deflayer " ++ lname

/-- Body of the `for lname in ("main", "extend", "fumbol")` loop of
`main`: any `ValueError` from `parse_block` (block not found or
unclosed) is caught and the layer skipped. -/
def pl_step (text : Str) (row_sizes : List Nat) (layers : Dict (List (List Str)))
    (lname : Str) : Dict (List (List Str)) :=
  match parse_block text (deflayerHead lname) with
  | .error _ => layers
  | .ok r =>
    dinsert lname (chunk_rows (tokens_from_lines r.1) row_sizes) layers

/-- The layer-parsing loop of `main`. -/
def parse_layers (text : Str) (row_sizes : List Nat) : Dict (List (List Str)) :=
  pl_names.foldl (pl_step text row_sizes) []

/-- The head searched for the physical layout block. -/
def defsrcHead : Str := chars "(defsrc"

/-- Source `main` up to the produced html string (file IO and the
confirmation print are outside the model; `src_tokens` is computed by
the source but never used, so it is omitted).  `none` propagates fuel
exhaustion of `parse_all_defalias`; `some (error m)` is an uncaught
`ValueError` aborting the run; `some (ok html)` is the string written
to the output file. -/
def run_main (fuel : Nat) (text : Str) : Option (Except Str Str) :=
  match parse_block text defsrcHead with
  | .error e => some (.error e)
  | .ok r =>
    let src_lines := r.1
    let row_sizes := row_sizes_of src_lines
    let shape_rows := shape_rows_of src_lines
    let layers := parse_layers text row_sizes
    match parse_all_defalias text fuel with
    | none => none
    | some (.error e) => some (.error e)
    | some (.ok aliases) =>
      some (.ok (build_html layers shape_rows (build_alias_descriptions aliases)))

/-! Helper lemmas about the row chunker. -/

lemma chunk_rows_go_length (t : List Str) (sizes : List Nat) (idx : Nat) :
    (chunk_rows_go t sizes idx).length = sizes.length := by
  induction sizes generalizing idx with
  | nil => rfl
  | cons a rest ih => simp [chunk_rows_go, ih]

lemma chunk_rows_go_flatten (t : List Str) (sizes : List Nat) (idx : Nat) :
    (chunk_rows_go t sizes idx).flatten = (t.drop idx).take sizes.sum := by
  induction sizes generalizing idx with
  | nil => simp [chunk_rows_go]
  | cons a rest ih =>
    simp only [chunk_rows_go, List.flatten_cons, ih, List.sum_cons, List.take_add,
      List.drop_drop]

lemma chunk_rows_go_getD (t : List Str) (sizes : List Nat) (idx j : Nat) :
    (chunk_rows_go t sizes idx).getD j [] =
      (t.drop (idx + (sizes.take j).sum)).take (sizes.getD j 0) := by
  induction sizes generalizing idx j with
  | nil => simp [chunk_rows_go]
  | cons a rest ih =>
    cases j with
    | zero => simp [chunk_rows_go]
    | succ j =>
      have h := ih (idx + a) j
      simp only [chunk_rows_go, List.getD_cons_succ, List.take_succ_cons,
        List.sum_cons, h, Nat.add_assoc]

/-- Demo tokens for the concrete `[2,3]`/5-token instance of the
claim. -/
def demoToks : List Str :=
  [chars "q", chars "w", chars "e", chars "r", chars "t"]

/-- Claim C4: `chunk_rows` yields exactly one row per size, row `j`
being the next `size_j` consecutive tokens (`take` of `drop` at the
running offset); with sizes `[2,3]` and exactly 5 tokens the rows have
lengths 2 and 3; short token lists only truncate trailing rows (the
`take`/`drop` slices are total, no error) and tokens beyond the sum of
the sizes are dropped (the concatenation of all rows is
`toks.take sizes.sum`). -/
theorem C4_chunk_rows_spec (toks : List Str) (sizes : List Nat) :
    (chunk_rows toks sizes).length = sizes.length ∧
    (∀ j, (chunk_rows toks sizes).getD j [] =
      (toks.drop ((sizes.take j).sum)).take (sizes.getD j 0)) ∧
    (chunk_rows toks sizes).flatten = toks.take sizes.sum ∧
    (chunk_rows demoToks [2, 3]).map List.length = [2, 3] := by
  refine ⟨chunk_rows_go_length toks sizes 0, fun j => ?_, ?_, by rfl⟩
  · simpa using chunk_rows_go_getD toks sizes 0 j
  · simpa using chunk_rows_go_flatten toks sizes 0

/-- Claim C7: the transparent placeholder `_` always renders with an
empty label (whatever the alias descriptions are) and its key div
always carries the `trans` class (whatever the physical shape token
is). -/
theorem C7_transparent_rendering (ad : Dict Str) (st : Str) :
    friendly_label (chars "_") ad = [] ∧ chars "trans" ∈ keyClasses (chars "_") st := by
  refine ⟨rfl, ?_⟩
  by_cases h : key_width_class st = [] <;>
    simp +decide [keyClasses, space_variants, h]

/-- Claim C9: when the logical position lies outside the physical
shape (`ri` beyond the shape rows, or `ci` beyond the row), the guard
of `render_layer_html` substitutes the empty token, which has no width
class — so rendering stays total instead of an out-of-bounds access. -/
theorem C9_shape_oob_safe (shape : List (List Str)) (ri ci : Nat)
    (h : ¬(ri < shape.length ∧ ci < (shape.getD ri []).length)) :
    shapeTokAt shape ri ci = [] ∧ key_width_class (shapeTokAt shape ri ci) = [] := by
  have h1 : shapeTokAt shape ri ci = [] := by unfold shapeTokAt; rw [if_neg h]
  exact ⟨h1, by rw [h1]; rfl⟩

/-- Witness for C9 at a concrete out-of-range position. -/
theorem C9_shape_oob_safe_witness :
    shapeTokAt [[chars "tab"]] 5 0 = [] ∧
    key_width_class (shapeTokAt [[chars "tab"]] 5 0) = [] :=
  C9_shape_oob_safe [[chars "tab"]] 5 0 (by decide)

/-! The `parse_all_defalias` loop.  `parse_block` takes no start
offset and always re-finds the first `(defalias` block, so as soon as
a second block exists past the end of the first one the loop state
stops changing and the loop never exits. -/

lemma pa_loop_stuck (text : Str) (start : Nat) (al : Dict Str)
    (h : pa_step text start al = Sum.inr (start, al)) :
    ∀ fuel, pa_loop text fuel start al = none := by
  intro fuel
  induction fuel with
  | zero => rfl
  | succ n ih => simp only [pa_loop, h]; exact ih

/-- A configuration with two alias blocks; `bb` is defined only in the
second block. -/
def textC1 : Str := chars "(defalias\n aa (one)\n)\n(defalias\n bb (two)\n)"

/-- The alias table after processing the first block of `textC1`. -/
def alC1 : Dict Str := [(chars "aa", chars "(one)")]

/-- Claim C1 (code bug): on a text with two `defalias` blocks a second
block occurrence remains ahead of the loop position (first conjunct),
yet `parse_all_defalias` never returns a table at all — for every
fuel the loop is still running — because `parse_block` ignores the
running offset and re-parses the first block forever.  In particular
the aliases of the second block (`bb`) never reach the table, contrary
to the claim and to the function's own docstring. -/
theorem C1_second_block_never_collected :
    findFrom defaliasHead textC1 21 = some 22 ∧
    ∀ fuel, parse_all_defalias textC1 fuel = none := by
  refine ⟨rfl, fun fuel => ?_⟩
  cases fuel with
  | zero => rfl
  | succ n =>
    have h1 : pa_step textC1 21 alC1 = Sum.inr (21, alC1) := rfl
    have h0 : parse_all_defalias textC1 (n + 1) = pa_loop textC1 n 21 alC1 := rfl
    rw [h0]
    exact pa_loop_stuck textC1 21 alC1 h1 n

/-- A minimal two-block configuration (blocks on one line, no alias
lines). -/
def textC2 : Str := chars "(defalias x 1)(defalias y 2)"

/-- Claim C2 (code bug): `parse_all_defalias` does not terminate on
every input.  On `textC2` the loop state reached after the first
iteration is a fixed point with another `(defalias` occurrence still
ahead (first conjunct), so for every fuel the loop is still running:
the Python original spins forever instead of completing or raising. -/
theorem C2_loop_divergence :
    findFrom defaliasHead textC2 14 = some 14 ∧
    ∀ fuel, parse_all_defalias textC2 fuel = none := by
  refine ⟨rfl, fun fuel => ?_⟩
  cases fuel with
  | zero => rfl
  | succ n =>
    have h1 : pa_step textC2 14 [] = Sum.inr (14, []) := rfl
    have h0 : parse_all_defalias textC2 (n + 1) = pa_loop textC2 n 14 [] := rfl
    rw [h0]
    exact pa_loop_stuck textC2 14 [] h1 n

/-! Error propagation: unclosed blocks. -/

/-- A configuration whose `deflayer main` block is unclosed while
`defsrc` is fine. -/
def textC3 : Str := chars "(defsrc\n a b\n)\n(deflayer main ("

/-- Truth value of a completed run (`some (ok html)`). -/
def isOkHtml : Option (Except Str Str) → Bool
  | some (.ok _) => true
  | _ => false

/-- Counterexample to claim C3 as stated: in `textC3` the extraction
of the `main` layer block hits end of input with unbalanced
parentheses and raises the unclosed-block error, yet the run is NOT
aborted — `main` catches the `ValueError` of layer blocks and the
pipeline completes, producing an output document. -/
theorem C3_unclosed_layer_not_fatal :
    parse_block textC3 (deflayerHead (chars "main")) =
      Except.error (chars "Unclosed block for (deflayer main") ∧
    isOkHtml (run_main 1 textC3) = true := ⟨rfl, rfl⟩

/-- Claim C3 amended: an unclosed-block (or not-found) failure is
fatal and propagates for the physical-layout (`defsrc`) block and for
alias blocks, but for the three named layer blocks every
`parse_block` failure — unclosed blocks included — is caught and the
layer is silently omitted, without aborting the run. -/
theorem C3_amended_fatality :
    (∀ (text : Str) (fuel : Nat) (e : Str),
      parse_block text defsrcHead = Except.error e →
      run_main fuel text = some (Except.error e)) ∧
    (∀ (text : Str) (rs : List Nat),
      exOk (parse_block text (deflayerHead (chars "main"))) = false →
      dlookup (chars "main") (parse_layers text rs) = none) ∧
    (∀ (text : Str) (rs : List Nat),
      exOk (parse_block text (deflayerHead (chars "extend"))) = false →
      dlookup (chars "extend") (parse_layers text rs) = none) ∧
    (∀ (text : Str) (rs : List Nat),
      exOk (parse_block text (deflayerHead (chars "fumbol"))) = false →
      dlookup (chars "fumbol") (parse_layers text rs) = none) ∧
    (∀ (text : Str) (fuel : Nat) (r : List Str × Nat × Nat) (m : Str),
      parse_block text defsrcHead = Except.ok r →
      parse_all_defalias text fuel = some (Except.error m) →
      run_main fuel text = some (Except.error m)) := by
  refine ⟨?_, ?_, ?_, ?_, ?_⟩
  · intro text fuel e h
    simp only [run_main, h]
  · intro text rs h
    cases h1 : parse_block text (deflayerHead (chars "main")) with
    | ok v => rw [h1] at h; simp [exOk] at h
    | error e1 =>
      cases h2 : parse_block text (deflayerHead (chars "extend")) <;>
      cases h3 : parse_block text (deflayerHead (chars "fumbol")) <;>
        simp +decide [parse_layers, pl_names, pl_step, h1, h2, h3, dinsert, dlookup]
  · intro text rs h
    cases h2 : parse_block text (deflayerHead (chars "extend")) with
    | ok v => rw [h2] at h; simp [exOk] at h
    | error e2 =>
      cases h1 : parse_block text (deflayerHead (chars "main")) <;>
      cases h3 : parse_block text (deflayerHead (chars "fumbol")) <;>
        simp +decide [parse_layers, pl_names, pl_step, h1, h2, h3, dinsert, dlookup]
  · intro text rs h
    cases h3 : parse_block text (deflayerHead (chars "fumbol")) with
    | ok v => rw [h3] at h; simp [exOk] at h
    | error e3 =>
      cases h1 : parse_block text (deflayerHead (chars "main")) <;>
      cases h2 : parse_block text (deflayerHead (chars "extend")) <;>
        simp +decide [parse_layers, pl_names, pl_step, h1, h2, h3, dinsert, dlookup]
  · intro text fuel r m h1 h2
    simp only [run_main, h1, h2]

/-- Input without any `defsrc` block. -/
def textC3a : Str := chars "no blocks here"

/-- Input with a sound `defsrc` but an unclosed `defalias` block. -/
def textC3c : Str := chars "(defsrc\n a\n)\n(defalias q ("

/-- Witness for the amended C3: a missing `defsrc` aborts the run, the
unclosed `main` layer of `textC3` is omitted from the layer table (as
are the absent `extend`/`fumbol`), and an unclosed `defalias` block
aborts the run. -/
theorem C3_amended_fatality_witness :
    run_main 1 textC3a = some (Except.error (chars "Block not found: (defsrc")) ∧
    dlookup (chars "main") (parse_layers textC3 [2]) = none ∧
    dlookup (chars "extend") (parse_layers textC3 [2]) = none ∧
    dlookup (chars "fumbol") (parse_layers textC3 [2]) = none ∧
    run_main 1 textC3c = some (Except.error (chars "Unclosed block for (defalias")) :=
  ⟨C3_amended_fatality.1 textC3a 1 _ rfl,
   C3_amended_fatality.2.1 textC3 [2] rfl,
   C3_amended_fatality.2.2.1 textC3 [2] rfl,
   C3_amended_fatality.2.2.2.1 textC3 [2] rfl,
   C3_amended_fatality.2.2.2.2 textC3c 1 _ _ rfl rfl⟩

/-- Claim C6: the parsed layer table holds exactly the layers of the
hardcoded preference list whose block parses, in that fixed order
(`main`, `extend`, `fumbol`); a layer whose block is absent is
silently skipped, and no other layer name can ever appear.
`build_html` then renders one section per entry of this table in list
order. -/
theorem C6_layer_preference_order (text : Str) (rs : List Nat) :
    (parse_layers text rs).map Prod.fst =
      pl_names.filter (fun n => exOk (parse_block text (deflayerHead n))) := by
  cases h1 : parse_block text (deflayerHead (chars "main")) <;>
  cases h2 : parse_block text (deflayerHead (chars "extend")) <;>
  cases h3 : parse_block text (deflayerHead (chars "fumbol")) <;>
    simp +decide [parse_layers, pl_names, pl_step, h1, h2, h3, dinsert, exOk,
      List.filter]

/-- Claim C8: when none of the ordered pattern rules matches the
(newline-flattened) expression, the alias description is exactly the
uppercased alias name; and an `@`-prefixed token whose name is not in
the description table is labeled exactly with its uppercased name. -/
theorem C8_uppercase_fallback :
    (∀ name expr : Str,
      searchM rule1At (nlToSpace expr) = none →
      searchM rule2At (nlToSpace expr) = none →
      searchM rule3At (nlToSpace expr) = none →
      searchM rule4At (nlToSpace expr) = none →
      searchM rule5At (nlToSpace expr) = none →
      (findFrom (chars "press-virtualkey shift") (nlToSpace expr) 0).isSome = false →
      aliasDesc name expr = upperStr name) ∧
    (∀ (ad : Dict Str) (name : Str),
      dlookup name ad = none →
      friendly_label ('@' :: name) ad = upperStr name) := by
  constructor
  · intro name expr h1 h2 h3 h4 h5 h6
    simp [aliasDesc, h1, h2, h3, h4, h5, h6]
  · intro ad name h
    have hne : ¬('@' :: name = chars "_") := by simp +decide [chars]
    have hat : ('@' :: name).head? = some '@' := rfl
    unfold friendly_label
    rw [if_neg hne, if_pos hat]
    simp [dGet, h]

/-- Witness for C8: the expression `xyz` matches no rule, so alias
`foo` gets description `FOO`; token `@foo` with an empty description
table is labeled `FOO`. -/
theorem C8_uppercase_fallback_witness :
    aliasDesc (chars "foo") (chars "xyz") = chars "FOO" ∧
    friendly_label (chars "@foo") [] = chars "FOO" :=
  ⟨(C8_uppercase_fallback.1 (chars "foo") (chars "xyz")
      rfl rfl rfl rfl rfl rfl).trans rfl,
   (C8_uppercase_fallback.2 [] (chars "foo") rfl).trans rfl⟩

/-! Key invariant of the alias table: every key comes from the
`[A-Za-z0-9_]+` capture of the line regex. -/

/-- All keys of the dict are runs of word characters. -/
def keysWord (d : Dict Str) : Prop := ∀ p ∈ d, p.1.all isWordChar = true

lemma matchAliasLine_name_word (ln : Str) (p : Str × Str)
    (h : matchAliasLine ln = some p) : p.1.all isWordChar = true := by
  simp only [matchAliasLine] at h
  split at h
  · exact absurd h (by simp)
  · split at h
    · exact absurd h (by simp)
    · split at h
      · split at h
        · exact absurd h (by simp)
        · have hp : p.1 = ln.takeWhile isWordChar := by
            cases h; rfl
          rw [hp]
          exact List.all_eq_true.mpr fun a ha => List.mem_takeWhile_imp ha
      · exact absurd h (by simp)

lemma keysWord_dinsert {d : Dict Str} {k v : Str} (hd : keysWord d)
    (hk : k.all isWordChar = true) : keysWord (dinsert k v d) := by
  intro p hp
  unfold dinsert at hp
  split at hp
  · rcases List.mem_map.1 hp with ⟨q, hq, rfl⟩
    by_cases hqk : q.1 = k
    · simp only [if_pos hqk]
      exact hk
    · simp only [if_neg hqk]
      exact hd q hq
  · rcases List.mem_append.1 hp with h | h
    · exact hd p h
    · rw [List.mem_singleton.1 h]
      exact hk

lemma keysWord_line {d : Dict Str} (ln : Str) (hd : keysWord d) :
    keysWord (pa_process_line d ln) := by
  simp only [pa_process_line]
  split
  · exact hd
  · split
    · exact hd
    · cases hm : matchAliasLine (pyStrip (strip_comments ln)) with
      | none => exact hd
      | some p => exact keysWord_dinsert hd (matchAliasLine_name_word _ p hm)

lemma keysWord_foldl {d : Dict Str} (lines : List Str) (hd : keysWord d) :
    keysWord (lines.foldl pa_process_line d) := by
  induction lines generalizing d with
  | nil => exact hd
  | cons ln rest ih => exact ih (keysWord_line ln hd)

lemma pa_step_preserves (text : Str) (start : Nat) (d : Dict Str)
    (hd : keysWord d) :
    (∀ r, pa_step text start d = Sum.inl (Except.ok r) → keysWord r) ∧
    (∀ p, pa_step text start d = Sum.inr p → keysWord p.2) := by
  unfold pa_step
  cases hf : findFrom defaliasHead text start with
  | none =>
    refine ⟨fun r h => ?_, fun p h => by simp at h⟩
    have : d = r := by
      have := Sum.inl.inj h
      exact Except.ok.inj this
    rw [← this]
    exact hd
  | some i =>
    cases hpb : parse_block text defaliasHead with
    | error m =>
      refine ⟨fun r h => ?_, fun p h => by simp at h⟩
      exact absurd (Sum.inl.inj h) (by simp)
    | ok trip =>
      refine ⟨fun r h => by simp at h, fun p h => ?_⟩
      have : (trip.2.2, trip.1.foldl pa_process_line d) = p := Sum.inr.inj h
      rw [← this]
      exact keysWord_foldl trip.1 hd

lemma keysWord_loop (text : Str) :
    ∀ (fuel start : Nat) (d res : Dict Str), keysWord d →
      pa_loop text fuel start d = some (Except.ok res) → keysWord res := by
  intro fuel
  induction fuel with
  | zero => intro start d res _ h; exact absurd h (by simp [pa_loop])
  | succ n ih =>
    intro start d res hd h
    simp only [pa_loop] at h
    cases hstep : pa_step text start d with
    | inl r =>
      rw [hstep] at h
      cases r with
      | error m => simp at h
      | ok d2 =>
        have : d2 = res := by
          have := Option.some.inj h
          exact Except.ok.inj this
        rw [← this]
        exact (pa_step_preserves text start d hd).1 d2 hstep
    | inr p =>
      rw [hstep] at h
      exact ih p.1 p.2 res ((pa_step_preserves text start d hd).2 p hstep) h

/-- Claim C10: a `defalias` line whose name segment contains a
character outside `[A-Za-z0-9_]` (such as the hyphen in
`my-alias (expr)`) fails the line regex and is silently skipped, and
consequently every key of any table `parse_all_defalias` can return is
a pure word-character run — a hyphenated name can never enter the
table. -/
theorem C10_invalid_name_skipped :
    (∀ al : Dict Str, pa_process_line al (chars "my-alias (expr)") = al) ∧
    (∀ (text : Str) (fuel : Nat) (res : Dict Str),
      parse_all_defalias text fuel = some (Except.ok res) →
      ∀ p ∈ res, p.1.all isWordChar = true) := by
  constructor
  · intro al; rfl
  · intro text fuel res h p hp
    exact keysWord_loop text fuel 0 [] res (fun q hq => absurd hq (List.not_mem_nil q))
      h p hp

/-- A block containing the malformed line and a well-formed one. -/
def textC10 : Str := chars "(defalias\n my-alias (expr)\n aa (foo)\n)"

/-- Witness for C10: processing the hyphenated line leaves a concrete
table unchanged, and on `textC10` the full parse returns a table whose
single key `aa` is a word run (the hyphenated alias was dropped). -/
theorem C10_invalid_name_skipped_witness :
    pa_process_line [(chars "x", chars "y")] (chars "my-alias (expr)") =
      [(chars "x", chars "y")] ∧
    (chars "aa").all isWordChar = true :=
  ⟨C10_invalid_name_skipped.1 [(chars "x", chars "y")],
   C10_invalid_name_skipped.2 textC10 2 [(chars "aa", chars "(foo)")] rfl
     (chars "aa", chars "(foo)") (List.mem_singleton.2 rfl)⟩

/-- Claim C5: the pipeline is a pure function of its input — two runs
with the same fuel on the same text are equal, so a completed run
yields byte-identical output both times.  Layer sections and rows are
kept in insertion-ordered lists (`Dict`, mirroring Python dicts), so
output order is fixed by construction. -/
theorem C5_deterministic (fuel : Nat) (text : Str)
    (r1 r2 : Option (Except Str Str))
    (h1 : run_main fuel text = r1) (h2 : run_main fuel text = r2) : r1 = r2 :=
  h1.symm.trans h2

/-- A small complete configuration. -/
def textC5 : Str := chars "(defsrc\n q w\n)\n(deflayer main\n a b\n)"

/-- Witness for C5 on a concrete configuration that runs to
completion. -/
theorem C5_deterministic_witness : run_main 1 textC5 = run_main 1 textC5 :=
  C5_deterministic 1 textC5 _ _ rfl rfl

end Kanata
